import Mathlib

/-!
Verification of the PM_APP ingestion engine (src/importer.py, src/app.py)
against its natural-language specification.

Modelling conventions:
* Python floats are modelled as exact rationals; the constant 1e-6 is the
  rational 1/1000000.
* Spreadsheet cell values reaching the row mapper are modelled by PyVal:
  absent (None), NaN, numeric, string, boolean and date cells.  Numeric
  cells are modelled as a single numeric kind (pandas delivers floats).
* Python float(str) is modelled for plain decimal literals (optional sign,
  digits, optional fraction); the spec excludes the spreadsheet parsing
  library, so exotic spellings are outside the modelled fragment.
* Dates are day counts (integers); string date parsing is delegated by the
  code to pandas, which the spec lists as an external collaborator, so a
  string date cell is modelled as unparseable.
* Timestamps (snapshot_at, moved_to_historical_at = now()) carry no claim
  content and are omitted from the records.
-/

namespace PMApp

/-- A spreadsheet cell value as seen by the row mapper. -/
inductive PyVal where
  | vNone
  | vNan
  | vNum (q : ℚ)
  | vStr (s : String)
  | vBool (b : Bool)
  | vDate (d : ℤ)
  deriving DecidableEq, Repr

/-- ASCII whitespace, the fragment of Python str.strip relevant to
spreadsheet cells. -/
def isSpaceChar (c : Char) : Bool :=
  c = ' ' || c = '\t' || c = '\n' || c = '\r'

/-- Python str.strip() on the character list. -/
def stripChars (l : List Char) : List Char :=
  ((l.dropWhile isSpaceChar).reverse.dropWhile isSpaceChar).reverse

/-- Python str.strip(). -/
def pyStrip (s : String) : String :=
  String.mk (stripChars s.toList)

/-- Python str.lower() on ASCII letters. -/
def lowerChar (c : Char) : Char :=
  if 'A' ≤ c ∧ c ≤ 'Z' then Char.ofNat (c.toNat + 32) else c

/-- Python str.lower(). -/
def pyLower (s : String) : String :=
  String.mk (s.toList.map lowerChar)

/-- Digit list to number, as positional decimal. -/
def digitsVal (l : List Char) : ℕ :=
  l.foldl (fun a c => a * 10 + (c.toNat - 48)) 0

/-- Python float(s) on plain decimal literals: optional surrounding blanks,
optional sign, digits with an optional single fractional part. -/
def pyParseFloat (s : String) : Option ℚ :=
  let t := stripChars s.toList
  let sg : ℚ := match t with
    | '-' :: _ => -1
    | _ => 1
  let u := match t with
    | '-' :: r => r
    | '+' :: r => r
    | _ => t
  let ip := u.takeWhile (fun c => c ≠ '.')
  let rest := u.dropWhile (fun c => c ≠ '.')
  if ip.all Char.isDigit then
    match rest with
    | [] => if ip.isEmpty then none else some (sg * (digitsVal ip : ℚ))
    | _ :: fp =>
        if fp.all Char.isDigit && decide (0 < ip.length + fp.length) then
          some (sg * ((digitsVal ip : ℚ) + (digitsVal fp : ℚ) / (10 : ℚ) ^ fp.length))
        else none
  else none

/-- Python int(f) truncates toward zero. -/
def pytrunc (q : ℚ) : ℤ :=
  if 0 ≤ q then ⌊q⌋ else ⌈q⌉

/-- importer._to_float: None/NaN/blank-string cells are null, numeric cells
pass through, strings go through float(), booleans coerce to 0/1, a date
cell makes float() raise, hence null. -/
def to_float_cell (v : PyVal) : Option ℚ :=
  match v with
  | .vNone => none
  | .vNan => none
  | .vNum q => some q
  | .vStr s => if pyStrip s = "" then none else pyParseFloat s
  | .vBool b => some (if b then 1 else 0)
  | .vDate _ => none

/-- importer._to_int: _to_float then int(), which truncates toward zero. -/
def to_int_cell (v : PyVal) : Option ℤ :=
  (to_float_cell v).map pytrunc

/-- Python str() of a cell, as used on project names and status tokens.
str() of a float prints a trailing ".0" on integral values. -/
def pyStr (v : PyVal) : String :=
  match v with
  | .vNone => "None"
  | .vNan => "nan"
  | .vNum q => if q.den = 1 then toString q.num ++ ".0" else toString q
  | .vStr s => s
  | .vBool b => if b then "True" else "False"
  | .vDate d => "date-" ++ toString d

/-- importer._to_bool. -/
def to_bool_cell (v : PyVal) : Option Bool :=
  match v with
  | .vNone => none
  | .vNan => none
  | .vBool b => some b
  | _ =>
    let s := pyLower (pyStrip (pyStr v))
    if s ∈ ["true", "verdadero", "1", "yes", "y", "si", "sí"] then some true
    else if s ∈ ["false", "falso", "0", "no", "n"] then some false
    else none

/-- The Excel serial-date origin 1899-12-30 as a day count (arbitrary epoch:
day counts are relative, only differences and equalities matter). -/
def excelOrigin : ℤ := 0

/-- importer.normalize_excel_date on the modelled cell kinds: None/NaN and
zero are null, date cells pass through, numeric cells are serial dates from
1899-12-30; the string branch delegates to pandas (external collaborator per
the spec), modelled as unparseable, except the explicit blank guard. -/
def normalize_excel_date (v : PyVal) : Option ℤ :=
  match v with
  | .vNone => none
  | .vNan => none
  | .vDate d => some d
  | .vNum q => if q = 0 then none else some (excelOrigin + ⌊q⌋)
  | .vStr _ => none
  | .vBool _ => none

/-- importer._to_date (used for report_date): date cells pass, the rest goes
through pandas to_datetime, modelled for the null cases. -/
def to_date_cell (v : PyVal) : Option ℤ :=
  match v with
  | .vNone => none
  | .vNan => none
  | .vDate d => some d
  | _ => none

/-- importer._delta: None on either side propagates, else the difference. -/
def deltaOf (curr prev : Option ℚ) : Option ℚ :=
  match curr, prev with
  | some c, some p => some (c - p)
  | _, _ => none

/-- The 1e-6 guard constant of importer.py. -/
def epsQ : ℚ := 1 / 1000000

/-- A normalized spreadsheet row (dict access: a missing key is None). -/
structure RawRow where
  project_code : PyVal := .vNone
  project_name : PyVal := .vNone
  client : PyVal := .vNone
  company : PyVal := .vNone
  team : PyVal := .vNone
  project_manager : PyVal := .vNone
  consultant : PyVal := .vNone
  status : PyVal := .vNone
  ordered_n : PyVal := .vNone
  ordered_e : PyVal := .vNone
  progress_w : PyVal := .vNone
  real_hours : PyVal := .vNone
  progress_c : PyVal := .vNone
  progress_pm : PyVal := .vNone
  progress_e : PyVal := .vNone
  progress_ed : PyVal := .vNone
  deviation_td : PyVal := .vNone
  deviation_cd : PyVal := .vNone
  deviation_pmd : PyVal := .vNone
  deviation_ed : PyVal := .vNone
  payment_inv : PyVal := .vNone
  payment_total : PyVal := .vNone
  payment_pending : PyVal := .vNone
  payment_q : PyVal := .vNone
  date_kickoff : PyVal := .vNone
  date_design : PyVal := .vNone
  date_validation : PyVal := .vNone
  date_golive : PyVal := .vNone
  date_reception : PyVal := .vNone
  date_end : PyVal := .vNone
  order_phase : PyVal := .vNone
  internal_status : PyVal := .vNone
  project_type : PyVal := .vNone
  service_type : PyVal := .vNone
  offer_code : PyVal := .vNone
  report_date : PyVal := .vNone
  comments : PyVal := .vNone
  kickoff_ok : PyVal := .vNone
  design_ok : PyVal := .vNone
  validation_ok : PyVal := .vNone
  golive_ok : PyVal := .vNone
  reception_ok : PyVal := .vNone
  end_ok : PyVal := .vNone
  mp : PyVal := .vNone
  deriving DecidableEq, Repr

/-- Pass-through text cells land in TEXT columns: strings pass, None is
NULL; other cell kinds carry no claim content and are modelled as NULL. -/
def optStrOfCell (v : PyVal) : Option String :=
  match v with
  | .vStr s => some s
  | _ => none

/-- Project fields produced by importer.map_row (the project dict). -/
structure ProjFields where
  project_code : String
  project_name : PyVal := .vNone
  client : Option String := none
  company : Option String := none
  team : Option String := none
  project_manager : Option String := none
  consultant : Option String := none
  status : Option String := none
  deriving DecidableEq, Repr

/-- Snapshot fields: the snap dict of importer.map_row, which is also the
data part of a stored project_snapshot row. -/
structure SnapRec where
  progress_w : Option ℚ := none
  progress_c : Option ℚ := none
  progress_pm : Option ℚ := none
  progress_e : Option ℚ := none
  progress_ed : Option ℚ := none
  deviation_td : Option ℚ := none
  deviation_cd : Option ℚ := none
  deviation_pmd : Option ℚ := none
  deviation_ed : Option ℚ := none
  payment_inv : Option ℚ := none
  payment_total : Option ℚ := none
  payment_pending : Option ℚ := none
  payment_q : Option ℚ := none
  date_kickoff : Option ℤ := none
  date_design : Option ℤ := none
  date_validation : Option ℤ := none
  date_golive : Option ℤ := none
  date_reception : Option ℤ := none
  date_end : Option ℤ := none
  team : Option String := none
  project_manager : Option String := none
  consultant : Option String := none
  order_phase : Option String := none
  internal_status : Option String := none
  project_type : Option String := none
  service_type : Option String := none
  offer_code : Option String := none
  report_date : Option ℤ := none
  comments : Option String := none
  kickoff_ok : Option Bool := none
  design_ok : Option Bool := none
  validation_ok : Option Bool := none
  golive_ok : Option Bool := none
  reception_ok : Option Bool := none
  end_ok : Option Bool := none
  mp : Option Bool := none
  ordered_n : Option ℚ := none
  ordered_e : Option ℚ := none
  ordered_total : Option ℚ := none
  real_hours : Option ℚ := none
  horas_teoricas : Option ℚ := none
  desviacion_h : Option ℚ := none
  desviacion_pct : Option ℚ := none
  progress_w_delta : Option ℚ := none
  real_hours_delta : Option ℚ := none
  ordered_total_delta : Option ℚ := none
  horas_teoricas_delta : Option ℚ := none
  desviacion_pct_delta : Option ℚ := none
  productividad_proyecto : Option ℚ := none
  deriving DecidableEq, Repr

/-- map_row: str(code_int) when _to_int parses the code cell, else the
plain str() form of the cell. -/
def mappedCode (r : RawRow) : String :=
  match to_int_cell r.project_code with
  | some n => toString n
  | none => pyStr r.project_code

/-- map_row: ordered_total, an absent operand counts as 0, both absent is
null. -/
def ordered_total_of (n e : Option ℚ) : Option ℚ :=
  if n ≠ none ∨ e ≠ none then some (n.getD 0 + e.getD 0) else none

/-- map_row: horas_teoricas, null unless both operands are present. -/
def horas_teoricas_of (ot pw : Option ℚ) : Option ℚ :=
  match ot, pw with
  | some a, some b => some (a * (b / 100))
  | _, _ => none

/-- map_row: desviacion_h, null unless both operands are present. -/
def desviacion_h_of (rh ht : Option ℚ) : Option ℚ :=
  match rh, ht with
  | some a, some b => some (a - b)
  | _, _ => none

/-- map_row: desviacion_pct with the not-in-(None,0) and abs > 1e-6
guards. -/
def desviacion_pct_of (dh ht : Option ℚ) : Option ℚ :=
  match dh, ht with
  | some d, some t => if t ≠ 0 ∧ epsQ < |t| then some (d / t * 100) else none
  | _, _ => none

/-- The project dict built by importer.map_row. -/
def mapProject (r : RawRow) : ProjFields :=
  { project_code := mappedCode r
    project_name := r.project_name
    client := optStrOfCell r.client
    company := optStrOfCell r.company
    team := optStrOfCell r.team
    project_manager := optStrOfCell r.project_manager
    consultant := optStrOfCell r.consultant
    status := optStrOfCell r.status }

/-- The snap dict built by importer.map_row. -/
def mapSnap (r : RawRow) : SnapRec :=
  let ordered_n := to_float_cell r.ordered_n
  let ordered_e := to_float_cell r.ordered_e
  let ordered_total := ordered_total_of ordered_n ordered_e
  let progress_w := to_float_cell r.progress_w
  let real_hours := to_float_cell r.real_hours
  let horas_teoricas := horas_teoricas_of ordered_total progress_w
  let desviacion_h := desviacion_h_of real_hours horas_teoricas
  let desviacion_pct := desviacion_pct_of desviacion_h horas_teoricas
  { progress_w := progress_w
    progress_c := to_float_cell r.progress_c
    progress_pm := to_float_cell r.progress_pm
    progress_e := to_float_cell r.progress_e
    progress_ed := to_float_cell r.progress_ed
    deviation_td := to_float_cell r.deviation_td
    deviation_cd := to_float_cell r.deviation_cd
    deviation_pmd := to_float_cell r.deviation_pmd
    deviation_ed := to_float_cell r.deviation_ed
    payment_inv := to_float_cell r.payment_inv
    payment_total := to_float_cell r.payment_total
    payment_pending := to_float_cell r.payment_pending
    payment_q := to_float_cell r.payment_q
    date_kickoff := normalize_excel_date r.date_kickoff
    date_design := normalize_excel_date r.date_design
    date_validation := normalize_excel_date r.date_validation
    date_golive := normalize_excel_date r.date_golive
    date_reception := normalize_excel_date r.date_reception
    date_end := normalize_excel_date r.date_end
    team := optStrOfCell r.team
    project_manager := optStrOfCell r.project_manager
    consultant := optStrOfCell r.consultant
    order_phase := optStrOfCell r.order_phase
    internal_status := optStrOfCell r.internal_status
    project_type := optStrOfCell r.project_type
    service_type := optStrOfCell r.service_type
    offer_code := optStrOfCell r.offer_code
    report_date := to_date_cell r.report_date
    comments := optStrOfCell r.comments
    kickoff_ok := to_bool_cell r.kickoff_ok
    design_ok := to_bool_cell r.design_ok
    validation_ok := to_bool_cell r.validation_ok
    golive_ok := to_bool_cell r.golive_ok
    reception_ok := to_bool_cell r.reception_ok
    end_ok := to_bool_cell r.end_ok
    mp := to_bool_cell r.mp
    ordered_n := ordered_n
    ordered_e := ordered_e
    ordered_total := ordered_total
    real_hours := real_hours
    horas_teoricas := horas_teoricas
    desviacion_h := desviacion_h
    desviacion_pct := desviacion_pct
    progress_w_delta := none
    real_hours_delta := none
    ordered_total_delta := none
    horas_teoricas_delta := none
    desviacion_pct_delta := none
    productividad_proyecto := none }

/-- importer.map_row: returns the project dict and the snap dict, or
nothing (both dicts empty) when the project code cell is None or NaN. -/
def map_row (r : RawRow) : Option (ProjFields × SnapRec) :=
  if r.project_code = .vNone ∨ r.project_code = .vNan then none
  else some (mapProject r, mapSnap r)

/-- app.import_excel lines 999-1003: when the mapped project name is None or
its text form strips and lower-cases to an empty, nan or none token, the
placeholder string is substituted (code is the stripped project code). -/
def fixup_name (code : String) (name : PyVal) : PyVal :=
  if name = .vNone ∨ pyLower (pyStrip (pyStr name)) ∈ ["", "nan", "none"] then
    .vStr ("(SIN NOMBRE) " ++ code)
  else name

/-- compute_deltas: productividad_proyecto with the in-(None,0) and
abs <= 1e-6 guards on the denominator. -/
def productividad_of (rhd htd : Option ℚ) : Option ℚ :=
  match rhd, htd with
  | some r, some t => if t = 0 ∨ |t| ≤ epsQ then none else some (r / t)
  | _, _ => none

/-- One stored row of the project_snapshot table. -/
structure SnapRow where
  pid : ℕ
  year : ℤ
  week : ℤ
  import_file_id : Option ℕ := none
  data : SnapRec := {}
  deriving DecidableEq, Repr

/-- Strict lexicographic order on (snapshot_year, snapshot_week), the order
used by the SQL row comparison and the ORDER BY of fetch_prev_snapshot. -/
def keyLt (a b : ℤ × ℤ) : Prop :=
  a.1 < b.1 ∨ (a.1 = b.1 ∧ a.2 < b.2)

instance (a b : ℤ × ℤ) : Decidable (keyLt a b) :=
  inferInstanceAs (Decidable (_ ∨ _))

/-- The (year, week) key of a stored snapshot. -/
def snapKey (s : SnapRow) : ℤ × ℤ := (s.year, s.week)

/-- Fold step selecting the row with the later (year, week) key; the
starting accumulator none yields none on an empty candidate set. -/
def pickLater (acc : Option SnapRow) (s : SnapRow) : Option SnapRow :=
  match acc with
  | none => some s
  | some t => if keyLt (snapKey t) (snapKey s) then some s else some t

/-- importer.fetch_prev_snapshot: among stored snapshots of the project
with key strictly below the target, the one with the greatest key
(ORDER BY snapshot_year DESC, snapshot_week DESC LIMIT 1). -/
def fetch_prev_snapshot (db : List SnapRow) (pid : ℕ) (y w : ℤ) :
    Option SnapRow :=
  (db.filter (fun s => s.pid = pid ∧ keyLt (snapKey s) (y, w))).foldl
    pickLater none

/-- app.move_project_to_historical: the project's latest stored snapshot
(ORDER BY snapshot_year DESC, snapshot_week DESC LIMIT 1). -/
def latest_snapshot (db : List SnapRow) (pid : ℕ) : Option SnapRow :=
  (db.filter (fun s => s.pid = pid)).foldl pickLater none

/-- importer.compute_deltas: no predecessor leaves the snap fields
untouched; otherwise the five deltas and the productivity quotient are
filled in from the chronological predecessor. -/
def compute_deltas (db : List SnapRow) (pid : ℕ) (y w : ℤ)
    (snap : SnapRec) : SnapRec :=
  match fetch_prev_snapshot db pid y w with
  | none => snap
  | some prevRow =>
    let prev := prevRow.data
    let rhd := deltaOf snap.real_hours prev.real_hours
    let htd := deltaOf snap.horas_teoricas prev.horas_teoricas
    { snap with
      progress_w_delta := deltaOf snap.progress_w prev.progress_w
      real_hours_delta := rhd
      ordered_total_delta := deltaOf snap.ordered_total prev.ordered_total
      horas_teoricas_delta := htd
      desviacion_pct_delta := deltaOf snap.desviacion_pct prev.desviacion_pct
      productividad_proyecto := productividad_of rhd htd }

/-- SQL COALESCE(new, old): a non-null new value wins, a null new value
keeps the stored one. -/
def coal {α : Type} (n o : Option α) : Option α :=
  match n with
  | some v => some v
  | none => o

/-- The DO UPDATE clause of importer.upsert_snapshot: every field merges
with COALESCE except the six milestone date columns, which always take the
incoming value (the refreshed snapshot_at timestamp is omitted from the
model). -/
def mergeSnap (old new : SnapRec) : SnapRec :=
  { progress_w := coal new.progress_w old.progress_w
    progress_c := coal new.progress_c old.progress_c
    progress_pm := coal new.progress_pm old.progress_pm
    progress_e := coal new.progress_e old.progress_e
    progress_ed := coal new.progress_ed old.progress_ed
    deviation_td := coal new.deviation_td old.deviation_td
    deviation_cd := coal new.deviation_cd old.deviation_cd
    deviation_pmd := coal new.deviation_pmd old.deviation_pmd
    deviation_ed := coal new.deviation_ed old.deviation_ed
    payment_inv := coal new.payment_inv old.payment_inv
    payment_total := coal new.payment_total old.payment_total
    payment_pending := coal new.payment_pending old.payment_pending
    payment_q := coal new.payment_q old.payment_q
    date_kickoff := new.date_kickoff
    date_design := new.date_design
    date_validation := new.date_validation
    date_golive := new.date_golive
    date_reception := new.date_reception
    date_end := new.date_end
    team := coal new.team old.team
    project_manager := coal new.project_manager old.project_manager
    consultant := coal new.consultant old.consultant
    order_phase := coal new.order_phase old.order_phase
    internal_status := coal new.internal_status old.internal_status
    project_type := coal new.project_type old.project_type
    service_type := coal new.service_type old.service_type
    offer_code := coal new.offer_code old.offer_code
    report_date := coal new.report_date old.report_date
    comments := coal new.comments old.comments
    kickoff_ok := coal new.kickoff_ok old.kickoff_ok
    design_ok := coal new.design_ok old.design_ok
    validation_ok := coal new.validation_ok old.validation_ok
    golive_ok := coal new.golive_ok old.golive_ok
    reception_ok := coal new.reception_ok old.reception_ok
    end_ok := coal new.end_ok old.end_ok
    mp := coal new.mp old.mp
    ordered_n := coal new.ordered_n old.ordered_n
    ordered_e := coal new.ordered_e old.ordered_e
    ordered_total := coal new.ordered_total old.ordered_total
    real_hours := coal new.real_hours old.real_hours
    horas_teoricas := coal new.horas_teoricas old.horas_teoricas
    desviacion_h := coal new.desviacion_h old.desviacion_h
    desviacion_pct := coal new.desviacion_pct old.desviacion_pct
    progress_w_delta := coal new.progress_w_delta old.progress_w_delta
    real_hours_delta := coal new.real_hours_delta old.real_hours_delta
    ordered_total_delta := coal new.ordered_total_delta old.ordered_total_delta
    horas_teoricas_delta := coal new.horas_teoricas_delta old.horas_teoricas_delta
    desviacion_pct_delta := coal new.desviacion_pct_delta old.desviacion_pct_delta
    productividad_proyecto :=
      coal new.productividad_proyecto old.productividad_proyecto }

/-- importer.upsert_snapshot: insert on the unique key
(project_id, snapshot_year, snapshot_week), merge on conflict. -/
def upsert_snapshot (db : List SnapRow) (pid : ℕ) (fid : Option ℕ)
    (y w : ℤ) (f : SnapRec) : List SnapRow :=
  if db.any (fun s => s.pid = pid ∧ s.year = y ∧ s.week = w) then
    db.map (fun s =>
      if s.pid = pid ∧ s.year = y ∧ s.week = w then
        { s with import_file_id := coal fid s.import_file_id
                 data := mergeSnap s.data f }
      else s)
  else db ++ [{ pid := pid, year := y, week := w, import_file_id := fid,
                data := f }]

/-- One row of the projects table (is_historical defaults to FALSE per the
schema's ADD COLUMN ... NOT NULL DEFAULT FALSE). -/
structure Project where
  id : ℕ
  project_code : String
  project_name : PyVal := .vNone
  client : Option String := none
  company : Option String := none
  team : Option String := none
  project_manager : Option String := none
  consultant : Option String := none
  status : Option String := none
  is_historical : Bool := false
  deriving DecidableEq, Repr

/-- COALESCE on the raw name cell: psycopg maps Python None to SQL NULL. -/
def pyCoal (n o : PyVal) : PyVal :=
  if n = .vNone then o else n

/-- The DO UPDATE clause of importer.upsert_project: field-by-field
COALESCE; id, code and is_historical are untouched. -/
def mergeProject (old : Project) (f : ProjFields) : Project :=
  { old with
    project_name := pyCoal f.project_name old.project_name
    client := coal f.client old.client
    company := coal f.company old.company
    team := coal f.team old.team
    project_manager := coal f.project_manager old.project_manager
    consultant := coal f.consultant old.consultant
    status := coal f.status old.status }

/-- A freshly inserted projects row. -/
def newProject (i : ℕ) (f : ProjFields) : Project :=
  { id := i
    project_code := f.project_code
    project_name := f.project_name
    client := f.client
    company := f.company
    team := f.team
    project_manager := f.project_manager
    consultant := f.consultant
    status := f.status
    is_historical := false }

/-- One row of the projects_historical table (the moved_to_historical_at
timestamp is omitted from the model). -/
structure HistRec where
  project_code : String
  project_name : PyVal := .vNone
  client : Option String := none
  company : Option String := none
  team : Option String := none
  project_manager : Option String := none
  consultant : Option String := none
  status : Option String := none
  moved_to_historical_week : String
  progress_w : ℚ := 100
  ordered_total : Option ℚ := none
  real_hours : Option ℚ := none
  desviacion_pct : Option ℚ := none
  last_import_filename : Option String := none
  deriving DecidableEq, Repr

/-- The persisted state touched by the import endpoint. -/
structure DBState where
  projects : List Project := []
  snapshots : List SnapRow := []
  historicals : List HistRec := []
  nextId : ℕ := 0
  deriving DecidableEq, Repr

/-- importer.upsert_project: insert by unique project_code, merge on
conflict; returns the updated state and the project id. -/
def upsert_project (db : DBState) (f : ProjFields) : DBState × ℕ :=
  match db.projects.find? (fun p => p.project_code = f.project_code) with
  | some p =>
      ({ db with projects := db.projects.map (fun q =>
            if q.project_code = f.project_code then mergeProject q f else q) },
       p.id)
  | none =>
      ({ db with projects := db.projects ++ [newProject db.nextId f]
                 nextId := db.nextId + 1 },
       db.nextId)

/-- app.historical_week_label: year dash W and the zero-padded week. -/
def historical_week_label (y w : ℤ) : String :=
  toString y ++ "-W" ++ (if 0 ≤ w ∧ w < 10 then "0" ++ toString w else toString w)

/-- The projects_historical row frozen by app.move_project_to_historical:
the project dict fields, the latest stored snapshot's metrics (null when
the project has no snapshot), forced progress 100. -/
def frozen_record (db : DBState) (pid : ℕ) (f : ProjFields)
    (weekLabel filename : String) : HistRec :=
  { project_code := f.project_code
    project_name := f.project_name
    client := f.client
    company := f.company
    team := f.team
    project_manager := f.project_manager
    consultant := f.consultant
    status := f.status
    moved_to_historical_week := weekLabel
    progress_w := 100
    ordered_total :=
      (latest_snapshot db.snapshots pid).bind (fun s => s.data.ordered_total)
    real_hours :=
      (latest_snapshot db.snapshots pid).bind (fun s => s.data.real_hours)
    desviacion_pct :=
      (latest_snapshot db.snapshots pid).bind (fun s => s.data.desviacion_pct)
    last_import_filename := some filename }

/-- INSERT ... ON CONFLICT (project_code) DO UPDATE on the
projects_historical table: the incoming record overwrites an existing
record with its code wholesale. -/
def upsert_hist (hl : List HistRec) (rec : HistRec) : List HistRec :=
  if hl.any (fun h => h.project_code = rec.project_code) then
    hl.map (fun h => if h.project_code = rec.project_code then rec else h)
  else hl ++ [rec]

/-- app.move_project_to_historical: set is_historical on the project row
selected by id, freeze the latest snapshot metrics into projects_historical
by code (forced progress 100), overwriting an existing record on
conflict. -/
def move_project_to_historical (db : DBState) (pid : ℕ) (f : ProjFields)
    (weekLabel filename : String) : DBState :=
  { db with
    projects := db.projects.map (fun p =>
      if p.id = pid then { p with is_historical := true } else p)
    historicals := upsert_hist db.historicals
      (frozen_record db pid f weekLabel filename) }

/-- app.restore_project_from_historical: clear is_historical by code and
delete the historical record. -/
def restore_project_from_historical (db : DBState) (code : String) :
    DBState :=
  { db with
    projects := db.projects.map (fun p =>
      if p.project_code = code then { p with is_historical := false } else p)
    historicals := db.historicals.filter (fun h => ¬ h.project_code = code) }

/-- The four batch counters of the import endpoint. -/
structure Counters where
  imported : ℕ := 0
  archived : ℕ := 0
  restored : ℕ := 0
  skipped : ℕ := 0
  deriving DecidableEq, Repr

/-- str(snapshot_fields.get("internal_status") or "").strip().lower():
None and the empty string collapse to the empty token. -/
def statusToken (o : Option String) : String :=
  pyLower (pyStrip (o.getD ""))

/-- The common per-row preamble of import_excel, lines 999-1003: the name
fixup applied to the mapped project dict (the stripped code substitutes
into the placeholder). -/
def fix_fields (pf0 : ProjFields) : ProjFields :=
  { pf0 with
    project_name := fixup_name (pyStrip pf0.project_code) pf0.project_name }

/-- The snapshot write of an ingested row: deltas computed against the
already-persisted store, then the snapshot upserted. -/
def ingest_snapshot (db : DBState) (pid : ℕ) (fid : Option ℕ) (y w : ℤ)
    (sf : SnapRec) : DBState :=
  { db with snapshots := upsert_snapshot db.snapshots pid fid y w (compute_deltas db.snapshots pid y w sf) }

/-- One row of import_excel in subset (OTS) mode, lines 996-1014: map the
row, fix up the name, skip on an empty code, else upsert the project,
compute deltas and upsert the snapshot. -/
def process_row_ots (db : DBState) (c : Counters) (fid : Option ℕ)
    (y w : ℤ) (r : RawRow) : DBState × Counters :=
  match map_row r with
  | none => (db, { c with skipped := c.skipped + 1 })
  | some (pf0, sf) =>
    if pyStrip pf0.project_code = "" then
      (db, { c with skipped := c.skipped + 1 })
    else
      (ingest_snapshot (upsert_project db (fix_fields pf0)).1
         (upsert_project db (fix_fields pf0)).2 fid y w sf,
       { c with imported := c.imported + 1 })

/-- The full (ALL) mode dispatch of import_excel, lines 1016-1052, after
the project upsert: closed and hided rows archive unconditionally, normal
rows restore and ingest only when a historical record for the stripped
code exists (else they are skipped), and unrecognized tokens are
skipped. -/
def dispatch_full (db1 : DBState) (pid : ℕ) (c : Counters) (fid : Option ℕ)
    (y w : ℤ) (filename code : String) (pf : ProjFields) (sf : SnapRec) :
    DBState × Counters :=
  if statusToken sf.internal_status = "closed" ∨
      statusToken sf.internal_status = "hided" then
    (move_project_to_historical db1 pid pf (historical_week_label y w)
       filename,
     { c with archived := c.archived + 1 })
  else if statusToken sf.internal_status = "normal" then
    if db1.historicals.any (fun h => h.project_code = code) then
      (ingest_snapshot (restore_project_from_historical db1 code) pid fid
         y w sf,
       { c with restored := c.restored + 1, imported := c.imported + 1 })
    else (db1, { c with skipped := c.skipped + 1 })
  else (db1, { c with skipped := c.skipped + 1 })

/-- One row of import_excel in full (ALL) mode, lines 996-1052: the common
mapping, name fixup and empty-code skip, then the project upsert and the
lifecycle dispatch. -/
def process_row_full (db : DBState) (c : Counters) (fid : Option ℕ)
    (y w : ℤ) (filename : String) (r : RawRow) : DBState × Counters :=
  match map_row r with
  | none => (db, { c with skipped := c.skipped + 1 })
  | some (pf0, sf) =>
    if pyStrip pf0.project_code = "" then
      (db, { c with skipped := c.skipped + 1 })
    else
      dispatch_full (upsert_project db (fix_fields pf0)).1
        (upsert_project db (fix_fields pf0)).2 c fid y w filename
        (pyStrip pf0.project_code) (fix_fields pf0) sf

/-- One weekly entry as read back for the indicator engine (app.to_float
is the identity on present numeric values, None on NULL). -/
structure WeeklyEntry where
  real_hours : Option ℚ := none
  progress_w : Option ℚ := none
  horas_teoricas : Option ℚ := none
  desviacion_pct : Option ℚ := none
  deriving DecidableEq, Repr

/-- The straight-line body of app.compute_productivity_indicator once
latest (weekly[-1]) and prev (weekly[-2]) are in hand. -/
def productivity_pair (latest prev : WeeklyEntry) : String :=
  match latest.real_hours, prev.real_hours,
        latest.progress_w, prev.progress_w with
  | some lr, some pr, some lp, some pp =>
    if lr > pr ∧ lp ≤ pp then "red"
    else if (match latest.horas_teoricas with
             | some lt => decide (lr > lt)
             | none => false) then "amber"
    else if (match prev.horas_teoricas with
             | some pt => decide (lr < pt)
             | none => false) then "green"
    else "orange"
  | _, _, _, _ => "orange"

/-- app.compute_productivity_indicator over snapshots ordered oldest to
newest: fewer than two snapshots give orange (the reverse-match
catchall). -/
def compute_productivity_indicator (weekly : List WeeklyEntry) : String :=
  match weekly.reverse with
  | latest :: prev :: _ => productivity_pair latest prev
  | _ => "orange"

/-- The lifecycle exclusivity invariant: a project's is_historical flag is
set exactly when a projects_historical row with its code exists. -/
def lifecycleConsistent (db : DBState) : Prop :=
  ∀ p ∈ db.projects,
    p.is_historical = true ↔ ∃ h ∈ db.historicals, h.project_code = p.project_code

/-- Well-formedness of a reachable database state: unique project codes and
ids, ids below the id counter, lifecycle exclusivity, and every historical
record backed by a project row. -/
def WFdb (db : DBState) : Prop :=
  (db.projects.map (fun p => p.project_code)).Nodup ∧
  (db.projects.map (fun p => p.id)).Nodup ∧
  (∀ p ∈ db.projects, p.id < db.nextId) ∧
  lifecycleConsistent db ∧
  (∀ h ∈ db.historicals, ∃ p ∈ db.projects, p.project_code = h.project_code)

/-- The Scenario 1 row of the spec. -/
def rowBase : RawRow :=
  { project_code := .vStr "P1001", real_hours := .vNum 40,
    ordered_n := .vNum 60, ordered_e := .vNum 40, progress_w := .vNum 50 }

/-- A full-mode row for project P1 with status normal. -/
def rowNormal : RawRow :=
  { project_code := .vStr "P1", project_name := .vStr "Alpha",
    internal_status := .vStr "normal", real_hours := .vNum 30,
    progress_w := .vNum 40 }

/-- A full-mode row for project P1 with status closed. -/
def rowClosed : RawRow :=
  { project_code := .vStr "P1", project_name := .vStr "Alpha",
    internal_status := .vStr "closed" }

/-- An ACTIVE project row for code P1. -/
def projActive : Project := { id := 0, project_code := "P1" }

/-- The same project, archived. -/
def projHist : Project :=
  { id := 0, project_code := "P1", is_historical := true }

/-- The historical record frozen for P1 in week 2025-W01. -/
def histP1 : HistRec :=
  { project_code := "P1", moved_to_historical_week := "2025-W01" }

/-- A state in which P1 is ACTIVE. -/
def dbActive : DBState := { projects := [projActive], nextId := 1 }

/-- A state in which P1 is HISTORICAL. -/
def dbHist : DBState :=
  { projects := [projHist], historicals := [histP1], nextId := 1 }

/-- A stored snapshot used by merge and delta examples. -/
def exStored : SnapRec :=
  { progress_w := some 10, real_hours := some 20, ordered_total := some 50,
    horas_teoricas := some 5, desviacion_pct := some 1,
    date_kickoff := some 100, comments := some "kept" }

/-- An incoming snapshot with some nulls and a cleared kickoff date. -/
def exIncoming : SnapRec :=
  { progress_w := some 12, real_hours := none, ordered_total := some 60,
    date_kickoff := none, date_design := some 7 }

/-- A small snapshot store for the delta examples: project 1 has weeks
(2025, 50) and (2026, 2), inserted out of chronological order. -/
def exSnapStore : List SnapRow :=
  [ { pid := 1, year := 2026, week := 2,
      data := { real_hours := some 25, progress_w := some 30 } },
    { pid := 1, year := 2025, week := 50,
      data := { real_hours := some 10, progress_w := some 20 } } ]

/-- The same snapshot store with the two rows submitted in the other
order. -/
def exSnapStoreRev : List SnapRow :=
  [ { pid := 1, year := 2025, week := 50,
      data := { real_hours := some 10, progress_w := some 20 } },
    { pid := 1, year := 2026, week := 2,
      data := { real_hours := some 25, progress_w := some 30 } } ]

/-- Non-null-wins merge of one field: a present incoming value wins, an
absent incoming value keeps the stored one (so it never erases it). -/
def coalesceOk {α : Type} (stored incoming merged : Option α) : Prop :=
  (∀ v, incoming = some v → merged = some v) ∧
  (incoming = none → merged = stored)

/-- The unique-key constraint of the project_snapshot table: no two rows
share (project_id, snapshot_year, snapshot_week). -/
def uniqueKeys (db : List SnapRow) : Prop :=
  db.Pairwise (fun a b => ¬(a.pid = b.pid ∧ snapKey a = snapKey b))

/-- All five delta fields and the productivity quotient are null. -/
def allDeltasNone (s : SnapRec) : Prop :=
  s.progress_w_delta = none ∧ s.real_hours_delta = none ∧
  s.ordered_total_delta = none ∧ s.horas_teoricas_delta = none ∧
  s.desviacion_pct_delta = none ∧ s.productividad_proyecto = none

/-- The empty database, before any import. -/
def emptyState : DBState := {}

/-! ## Helper lemmas -/

theorem coal_spec {α : Type} (o n : Option α) : coalesceOk o n (coal n o) := by
  constructor
  · intro v h
    subst h
    rfl
  · intro h
    subst h
    rfl

/-! ## C3: snapshot merge semantics -/

/-- C3: on a snapshot upsert conflict every field merges non-null-wins (a
new non-null value overwrites, a new null keeps the stored value), except
the six milestone date fields, which always take the incoming value, even
when it is null. -/
theorem C3_snapshot_merge_semantics (old new : SnapRec) :
    coalesceOk old.progress_w new.progress_w (mergeSnap old new).progress_w ∧
    coalesceOk old.progress_c new.progress_c (mergeSnap old new).progress_c ∧
    coalesceOk old.progress_pm new.progress_pm (mergeSnap old new).progress_pm ∧
    coalesceOk old.progress_e new.progress_e (mergeSnap old new).progress_e ∧
    coalesceOk old.progress_ed new.progress_ed (mergeSnap old new).progress_ed ∧
    coalesceOk old.deviation_td new.deviation_td (mergeSnap old new).deviation_td ∧
    coalesceOk old.deviation_cd new.deviation_cd (mergeSnap old new).deviation_cd ∧
    coalesceOk old.deviation_pmd new.deviation_pmd (mergeSnap old new).deviation_pmd ∧
    coalesceOk old.deviation_ed new.deviation_ed (mergeSnap old new).deviation_ed ∧
    coalesceOk old.payment_inv new.payment_inv (mergeSnap old new).payment_inv ∧
    coalesceOk old.payment_total new.payment_total (mergeSnap old new).payment_total ∧
    coalesceOk old.payment_pending new.payment_pending (mergeSnap old new).payment_pending ∧
    coalesceOk old.payment_q new.payment_q (mergeSnap old new).payment_q ∧
    (mergeSnap old new).date_kickoff = new.date_kickoff ∧
    (mergeSnap old new).date_design = new.date_design ∧
    (mergeSnap old new).date_validation = new.date_validation ∧
    (mergeSnap old new).date_golive = new.date_golive ∧
    (mergeSnap old new).date_reception = new.date_reception ∧
    (mergeSnap old new).date_end = new.date_end ∧
    coalesceOk old.team new.team (mergeSnap old new).team ∧
    coalesceOk old.project_manager new.project_manager (mergeSnap old new).project_manager ∧
    coalesceOk old.consultant new.consultant (mergeSnap old new).consultant ∧
    coalesceOk old.order_phase new.order_phase (mergeSnap old new).order_phase ∧
    coalesceOk old.internal_status new.internal_status (mergeSnap old new).internal_status ∧
    coalesceOk old.project_type new.project_type (mergeSnap old new).project_type ∧
    coalesceOk old.service_type new.service_type (mergeSnap old new).service_type ∧
    coalesceOk old.offer_code new.offer_code (mergeSnap old new).offer_code ∧
    coalesceOk old.report_date new.report_date (mergeSnap old new).report_date ∧
    coalesceOk old.comments new.comments (mergeSnap old new).comments ∧
    coalesceOk old.kickoff_ok new.kickoff_ok (mergeSnap old new).kickoff_ok ∧
    coalesceOk old.design_ok new.design_ok (mergeSnap old new).design_ok ∧
    coalesceOk old.validation_ok new.validation_ok (mergeSnap old new).validation_ok ∧
    coalesceOk old.golive_ok new.golive_ok (mergeSnap old new).golive_ok ∧
    coalesceOk old.reception_ok new.reception_ok (mergeSnap old new).reception_ok ∧
    coalesceOk old.end_ok new.end_ok (mergeSnap old new).end_ok ∧
    coalesceOk old.mp new.mp (mergeSnap old new).mp ∧
    coalesceOk old.ordered_n new.ordered_n (mergeSnap old new).ordered_n ∧
    coalesceOk old.ordered_e new.ordered_e (mergeSnap old new).ordered_e ∧
    coalesceOk old.ordered_total new.ordered_total (mergeSnap old new).ordered_total ∧
    coalesceOk old.real_hours new.real_hours (mergeSnap old new).real_hours ∧
    coalesceOk old.horas_teoricas new.horas_teoricas (mergeSnap old new).horas_teoricas ∧
    coalesceOk old.desviacion_h new.desviacion_h (mergeSnap old new).desviacion_h ∧
    coalesceOk old.desviacion_pct new.desviacion_pct (mergeSnap old new).desviacion_pct ∧
    coalesceOk old.progress_w_delta new.progress_w_delta (mergeSnap old new).progress_w_delta ∧
    coalesceOk old.real_hours_delta new.real_hours_delta (mergeSnap old new).real_hours_delta ∧
    coalesceOk old.ordered_total_delta new.ordered_total_delta (mergeSnap old new).ordered_total_delta ∧
    coalesceOk old.horas_teoricas_delta new.horas_teoricas_delta (mergeSnap old new).horas_teoricas_delta ∧
    coalesceOk old.desviacion_pct_delta new.desviacion_pct_delta (mergeSnap old new).desviacion_pct_delta ∧
    coalesceOk old.productividad_proyecto new.productividad_proyecto (mergeSnap old new).productividad_proyecto :=
  ⟨coal_spec _ _, coal_spec _ _, coal_spec _ _, coal_spec _ _, coal_spec _ _,
   coal_spec _ _, coal_spec _ _, coal_spec _ _, coal_spec _ _, coal_spec _ _,
   coal_spec _ _, coal_spec _ _, coal_spec _ _,
   rfl, rfl, rfl, rfl, rfl, rfl,
   coal_spec _ _, coal_spec _ _, coal_spec _ _, coal_spec _ _, coal_spec _ _,
   coal_spec _ _, coal_spec _ _, coal_spec _ _, coal_spec _ _, coal_spec _ _,
   coal_spec _ _, coal_spec _ _, coal_spec _ _, coal_spec _ _, coal_spec _ _,
   coal_spec _ _, coal_spec _ _, coal_spec _ _, coal_spec _ _, coal_spec _ _,
   coal_spec _ _, coal_spec _ _, coal_spec _ _, coal_spec _ _, coal_spec _ _,
   coal_spec _ _, coal_spec _ _, coal_spec _ _, coal_spec _ _, coal_spec _ _⟩

theorem C3_snapshot_merge_semantics_witness :
    (mergeSnap exStored exIncoming).progress_w = some 12 ∧
    (mergeSnap exStored exIncoming).real_hours = some 20 ∧
    (mergeSnap exStored exIncoming).date_kickoff = none := by
  obtain ⟨h1, -, -, -, -, -, -, -, -, -, -, -, -, h14, -, -, -, -, -, -, -,
    -, -, -, -, -, -, -, -, -, -, -, -, -, -, -, -, -, -, h40, -⟩ :=
    C3_snapshot_merge_semantics exStored exIncoming
  refine ⟨h1.1 12 rfl, ?_, h14.trans rfl⟩
  exact (h40.2 rfl).trans rfl

/-! ## C8: productivity quotient guard -/

/-- C8 counterexample: at theoretical_hours_delta exactly 1e-6 the
denominator magnitude is at least 1e-6 and both deltas are non-null, yet
the code yields null, not the quotient (the guard is a non-strict
comparison). -/
theorem abs_epsQ : |epsQ| = epsQ :=
  abs_of_pos (by norm_num [epsQ])

/-- The (None, 0) and abs guards on the denominator collapse to a single
non-strict magnitude test, since 1e-6 is positive. -/
theorem guard_iff (t : ℚ) : (t = 0 ∨ |t| ≤ epsQ) ↔ |t| ≤ epsQ := by
  constructor
  · rintro (h | h)
    · rw [h]
      simp [epsQ]
    · exact h
  · exact Or.inr

theorem C8_boundary_counterexample :
    epsQ ≤ |epsQ| ∧ productividad_of (some 1) (some epsQ) = none := by
  constructor
  · rw [abs_epsQ]
  · have hrw : productividad_of (some 1) (some epsQ) =
        if epsQ = 0 ∨ |epsQ| ≤ epsQ then (none : Option ℚ)
        else some (1 / epsQ) := rfl
    rw [hrw, if_pos (Or.inr (le_of_eq abs_epsQ))]

/-- C8 amended: the productivity quotient is null exactly when the
real-hours delta is null, the theoretical-hours delta is null, or the
magnitude of the theoretical-hours delta is at most (not: below) 1e-6;
when it exceeds 1e-6 and both deltas are non-null the quotient is
produced. -/
theorem C8_productivity_quotient_guard (rhd htd : Option ℚ) :
    (productividad_of rhd htd = none ↔
      rhd = none ∨ htd = none ∨ ∃ t, htd = some t ∧ |t| ≤ epsQ) ∧
    (∀ r t, rhd = some r → htd = some t → epsQ < |t| →
      productividad_of rhd htd = some (r / t)) := by
  constructor
  · cases rhd with
    | none => simp [productividad_of]
    | some r =>
      cases htd with
      | none => simp [productividad_of]
      | some t =>
        have hrw : productividad_of (some r) (some t) =
            if t = 0 ∨ |t| ≤ epsQ then (none : Option ℚ)
            else some (r / t) := rfl
        rw [hrw]
        by_cases hle : |t| ≤ epsQ
        · rw [if_pos ((guard_iff t).mpr hle)]
          exact ⟨fun _ => Or.inr (Or.inr ⟨t, rfl, hle⟩), fun _ => rfl⟩
        · rw [if_neg (fun hc => hle ((guard_iff t).mp hc))]
          constructor
          · intro h
            exact absurd h (by simp)
          · rintro (h | h | ⟨u, hu, hle2⟩)
            · exact absurd h (by simp)
            · exact absurd h (by simp)
            · cases Option.some.inj hu
              exact absurd hle2 hle
  · intro r t hr ht hgt
    subst hr
    subst ht
    have hrw : productividad_of (some r) (some t) =
        if t = 0 ∨ |t| ≤ epsQ then (none : Option ℚ)
        else some (r / t) := rfl
    rw [hrw, if_neg (fun hc => (not_le.mpr hgt) ((guard_iff t).mp hc))]

theorem C8_productivity_quotient_guard_witness :
    productividad_of (some 3) (some 2) = some (3 / 2) :=
  (C8_productivity_quotient_guard (some 3) (some 2)).2 3 2 rfl rfl (by norm_num [epsQ])

/-! ## C9: missing-name placeholder -/

/-- C9 counterexample: a row for code P1 with a missing name stores the
placeholder "(SIN NOMBRE) P1", not "(NO NAME) P1" as the claim states. -/
theorem C9_placeholder_counterexample :
    fixup_name "P1" PyVal.vNone = PyVal.vStr "(SIN NOMBRE) P1" ∧
    fixup_name "P1" PyVal.vNone ≠ PyVal.vStr "(NO NAME) P1" := by
  constructor
  · rfl
  · decide

/-- C9 amended: whenever the project name is missing or its text form
equals (case-insensitively, after stripping) an empty, nan or none token,
the stored project name is the placeholder "(SIN NOMBRE) <code>". -/
theorem C9_no_name_placeholder (code : String) (name : PyVal)
    (h : name = PyVal.vNone ∨
      pyLower (pyStrip (pyStr name)) ∈ ["", "nan", "none"]) :
    fixup_name code name = PyVal.vStr ("(SIN NOMBRE) " ++ code) := by
  unfold fixup_name
  rw [if_pos h]

theorem C9_no_name_placeholder_witness :
    fixup_name "P1001" PyVal.vNone = PyVal.vStr "(SIN NOMBRE) P1001" :=
  C9_no_name_placeholder "P1001" PyVal.vNone (Or.inl rfl)

/-! ## C6: productivity indicator -/

/-- C6: over snapshots ordered oldest to newest, fewer than two snapshots
or a null among the four inputs yields orange, and more real hours with
no more weekly progress yields red; the spec scenario (prev real 20 and
progress 40, latest real 30 and progress 40) is red. -/
theorem C6_productivity_indicator (weekly : List WeeklyEntry)
    (latest prev : WeeklyEntry) (rest : List WeeklyEntry) :
    (weekly.length < 2 → compute_productivity_indicator weekly = "orange") ∧
    (weekly.reverse = latest :: prev :: rest →
      (latest.real_hours = none ∨ prev.real_hours = none ∨
        latest.progress_w = none ∨ prev.progress_w = none) →
      compute_productivity_indicator weekly = "orange") ∧
    (∀ lr pr lp pp, weekly.reverse = latest :: prev :: rest →
      latest.real_hours = some lr → prev.real_hours = some pr →
      latest.progress_w = some lp → prev.progress_w = some pp →
      pr < lr → lp ≤ pp →
      compute_productivity_indicator weekly = "red") ∧
    compute_productivity_indicator
      [ { real_hours := some 20, progress_w := some 40 },
        { real_hours := some 30, progress_w := some 40 } ] = "red" := by
  refine ⟨?_, ?_, ?_, ?_⟩
  · intro h
    rcases weekly with _ | ⟨a, _ | ⟨b, t⟩⟩
    · rfl
    · rfl
    · exfalso
      simp at h
      omega
  · intro hrev hnull
    unfold compute_productivity_indicator
    rw [hrev]
    show productivity_pair latest prev = "orange"
    unfold productivity_pair
    cases h1 : latest.real_hours <;> cases h2 : prev.real_hours <;>
      cases h3 : latest.progress_w <;> cases h4 : prev.progress_w <;>
      simp_all
  · intro lr pr lp pp hrev h1 h2 h3 h4 hlt hle
    unfold compute_productivity_indicator
    rw [hrev]
    show productivity_pair latest prev = "red"
    unfold productivity_pair
    rw [h1, h2, h3, h4]
    exact if_pos ⟨hlt, hle⟩
  · decide

theorem C6_productivity_indicator_witness :
    compute_productivity_indicator
      [ { real_hours := some 20, progress_w := some 40 },
        { real_hours := some 30, progress_w := some 40 } ] = "red" := by
  refine (C6_productivity_indicator
    [ { real_hours := some 20, progress_w := some 40 },
      { real_hours := some 30, progress_w := some 40 } ]
    { real_hours := some 30, progress_w := some 40 }
    { real_hours := some 20, progress_w := some 40 }
    []).2.2.1 30 20 40 40 (by decide) rfl rfl rfl rfl (by norm_num) le_rfl

/-! ## C7: row mapper base metrics -/

theorem map_row_eq_some {r : RawRow} {p : ProjFields} {s : SnapRec}
    (h : map_row r = some (p, s)) : p = mapProject r ∧ s = mapSnap r := by
  unfold map_row at h
  by_cases hc : r.project_code = PyVal.vNone ∨ r.project_code = PyVal.vNan
  · rw [if_pos hc] at h
    cases h
  · rw [if_neg hc] at h
    injection h with h2
    exact ⟨(congrArg Prod.fst h2).symm, (congrArg Prod.snd h2).symm⟩

theorem mapSnap_ordered_total_eq (r : RawRow) :
    (mapSnap r).ordered_total =
      ordered_total_of (to_float_cell r.ordered_n) (to_float_cell r.ordered_e) := rfl

theorem mapSnap_progress_w_eq (r : RawRow) :
    (mapSnap r).progress_w = to_float_cell r.progress_w := rfl

theorem mapSnap_real_hours_eq (r : RawRow) :
    (mapSnap r).real_hours = to_float_cell r.real_hours := rfl

theorem mapSnap_horas_eq (r : RawRow) :
    (mapSnap r).horas_teoricas =
      horas_teoricas_of (mapSnap r).ordered_total (mapSnap r).progress_w := rfl

theorem mapSnap_desvh_eq (r : RawRow) :
    (mapSnap r).desviacion_h =
      desviacion_h_of (mapSnap r).real_hours (mapSnap r).horas_teoricas := rfl

theorem mapSnap_desvpct_eq (r : RawRow) :
    (mapSnap r).desviacion_pct =
      desviacion_pct_of (mapSnap r).desviacion_h (mapSnap r).horas_teoricas := rfl

theorem rowBase_ordered_total : (mapSnap rowBase).ordered_total = some 100 := by
  show ordered_total_of (some 60) (some 40) = some 100
  simp [ordered_total_of]
  norm_num

theorem rowBase_horas : (mapSnap rowBase).horas_teoricas = some 50 := by
  rw [mapSnap_horas_eq, rowBase_ordered_total,
    show (mapSnap rowBase).progress_w = some 50 from rfl]
  show some ((100 : ℚ) * (50 / 100)) = some 50
  norm_num

theorem rowBase_desvh : (mapSnap rowBase).desviacion_h = some (-10) := by
  rw [mapSnap_desvh_eq, rowBase_horas,
    show (mapSnap rowBase).real_hours = some 40 from rfl]
  show some ((40 : ℚ) - 50) = some (-10)
  norm_num

theorem rowBase_desvpct : (mapSnap rowBase).desviacion_pct = some (-20) := by
  rw [mapSnap_desvpct_eq, rowBase_desvh, rowBase_horas]
  show (if (50 : ℚ) ≠ 0 ∧ epsQ < |(50 : ℚ)| then
    some ((-10 : ℚ) / 50 * 100) else none) = some (-20)
  rw [if_pos (by constructor <;> norm_num [epsQ])]
  norm_num

/-- C7: the row mapper's derived metrics: ordered_total treats an absent
operand as 0 and is null only when both are absent; theoretical hours and
deviation hours are null unless both operands are present, else the stated
formulas; deviation percent is null on a null operand or a theoretical
magnitude below 1e-6, and equals the stated formula whenever it is
non-null; the Scenario 1 row yields 100, 50, -10 and -20. -/
theorem C7_row_mapper_base_metrics (r : RawRow) (p : ProjFields)
    (s : SnapRec) (h : map_row r = some (p, s)) :
    (to_float_cell r.ordered_n = none → to_float_cell r.ordered_e = none →
      s.ordered_total = none) ∧
    (∀ a b, to_float_cell r.ordered_n = some a →
      to_float_cell r.ordered_e = some b → s.ordered_total = some (a + b)) ∧
    (∀ a, to_float_cell r.ordered_n = some a →
      to_float_cell r.ordered_e = none → s.ordered_total = some a) ∧
    (∀ b, to_float_cell r.ordered_n = none →
      to_float_cell r.ordered_e = some b → s.ordered_total = some b) ∧
    (∀ ot pw, s.ordered_total = some ot → s.progress_w = some pw →
      s.horas_teoricas = some (ot * (pw / 100))) ∧
    (s.ordered_total = none ∨ s.progress_w = none → s.horas_teoricas = none) ∧
    (∀ rh ht, s.real_hours = some rh → s.horas_teoricas = some ht →
      s.desviacion_h = some (rh - ht)) ∧
    (s.real_hours = none ∨ s.horas_teoricas = none → s.desviacion_h = none) ∧
    (∀ t, s.horas_teoricas = some t → |t| < epsQ → s.desviacion_pct = none) ∧
    (s.desviacion_h = none → s.desviacion_pct = none) ∧
    (s.horas_teoricas = none → s.desviacion_pct = none) ∧
    (∀ d t, s.desviacion_h = some d → s.horas_teoricas = some t →
      s.desviacion_pct ≠ none → s.desviacion_pct = some (d / t * 100)) ∧
    ((mapSnap rowBase).ordered_total = some 100 ∧
      (mapSnap rowBase).horas_teoricas = some 50 ∧
      (mapSnap rowBase).desviacion_h = some (-10) ∧
      (mapSnap rowBase).desviacion_pct = some (-20)) := by
  obtain ⟨-, hs⟩ := map_row_eq_some h
  subst hs
  refine ⟨?_, ?_, ?_, ?_, ?_, ?_, ?_, ?_, ?_, ?_, ?_, ?_,
    rowBase_ordered_total, rowBase_horas, rowBase_desvh, rowBase_desvpct⟩
  · intro hn he
    rw [mapSnap_ordered_total_eq, hn, he]
    simp [ordered_total_of]
  · intro a b hn he
    rw [mapSnap_ordered_total_eq, hn, he]
    simp [ordered_total_of]
  · intro a hn he
    rw [mapSnap_ordered_total_eq, hn, he]
    simp [ordered_total_of]
  · intro b hn he
    rw [mapSnap_ordered_total_eq, hn, he]
    simp [ordered_total_of]
  · intro ot pw hot hpw
    rw [mapSnap_horas_eq, hot, hpw]
    rfl
  · intro hor
    rw [mapSnap_horas_eq]
    rcases hor with h0 | h0 <;> rw [h0] <;> cases hx : (mapSnap r).progress_w <;>
      cases hy : (mapSnap r).ordered_total <;> simp [horas_teoricas_of]
  · intro rh ht hrh hht
    rw [mapSnap_desvh_eq, hrh, hht]
    rfl
  · intro hor
    rw [mapSnap_desvh_eq]
    rcases hor with h0 | h0 <;> rw [h0] <;> cases hx : (mapSnap r).real_hours <;>
      cases hy : (mapSnap r).horas_teoricas <;> simp [desviacion_h_of]
  · intro t hht habs
    rw [mapSnap_desvpct_eq, hht]
    cases hd : (mapSnap r).desviacion_h with
    | none => rfl
    | some d =>
      show (if t ≠ 0 ∧ epsQ < |t| then some (d / t * 100) else none) = none
      rw [if_neg]
      rintro ⟨-, hgt⟩
      exact absurd (lt_trans hgt habs) (lt_irrefl _)
  · intro hd
    rw [mapSnap_desvpct_eq, hd]
    cases hy : (mapSnap r).horas_teoricas <;> simp [desviacion_pct_of]
  · intro hht
    rw [mapSnap_desvpct_eq, hht]
    cases hd : (mapSnap r).desviacion_h <;> simp [desviacion_pct_of]
  · intro d t hd hht hne
    rw [mapSnap_desvpct_eq, hd, hht] at hne ⊢
    show (if t ≠ 0 ∧ epsQ < |t| then some (d / t * 100) else none) =
      some (d / t * 100)
    by_cases hc : t ≠ 0 ∧ epsQ < |t|
    · rw [if_pos hc]
    · exfalso
      apply hne
      show (if t ≠ 0 ∧ epsQ < |t| then some (d / t * 100) else none) = none
      rw [if_neg hc]

theorem C7_row_mapper_base_metrics_witness :
    (mapSnap rowBase).ordered_total = some 100 ∧
    (mapSnap rowBase).desviacion_pct = some (-20) := by
  have h := C7_row_mapper_base_metrics rowBase (mapProject rowBase)
    (mapSnap rowBase) rfl
  exact ⟨h.2.1 60 40 rfl rfl |>.trans (by norm_num),
    (h.2.2.2.2.2.2.2.2.2.2.2.2).2.2.2⟩

/-! ## C10: numeric project codes collapse -/

/-- C10: a project code cell that parses as a number is stored as the
decimal string of its integer truncation, so 1001.0 and "1001" collapse to
the same code; an unparseable string code is stored unchanged. -/
theorem C10_numeric_code_truncation (r : RawRow) (p : ProjFields)
    (s : SnapRec) (h : map_row r = some (p, s)) :
    (∀ q, to_float_cell r.project_code = some q →
      p.project_code = toString (pytrunc q)) ∧
    (∀ str0, to_float_cell r.project_code = none →
      r.project_code = PyVal.vStr str0 → p.project_code = str0) ∧
    (map_row { project_code := PyVal.vNum 1001 }).map
      (fun x => x.1.project_code) = some "1001" := by
  obtain ⟨hp, -⟩ := map_row_eq_some h
  subst hp
  refine ⟨?_, ?_, by decide⟩
  · intro q hq
    show mappedCode r = _
    unfold mappedCode
    rw [show to_int_cell r.project_code = some (pytrunc q) from by
      unfold to_int_cell
      rw [hq]
      rfl]
  · intro str0 hnone hstr
    show mappedCode r = _
    unfold mappedCode
    rw [show to_int_cell r.project_code = none from by
      unfold to_int_cell
      rw [hnone]
      rfl]
    rw [hstr]
    rfl

theorem C10_numeric_code_truncation_witness :
    (mapProject { project_code := PyVal.vStr "1001.0" }).project_code =
      "1001" ∧
    (mapProject { project_code := PyVal.vStr "P1001" }).project_code =
      "P1001" := by
  constructor
  · have h := (C10_numeric_code_truncation
      { project_code := PyVal.vStr "1001.0" } (mapProject _) (mapSnap _)
      rfl).1 1001 ?_
    · rw [h]
      decide
    · show pyParseFloat "1001.0" = some 1001
      have h1 : digitsVal ['1', '0', '0', '1'] = 1001 := by decide
      have h2 : digitsVal ['0'] = 0 := by decide
      show some ((1 : ℚ) * ((digitsVal ['1', '0', '0', '1'] : ℚ) +
        (digitsVal ['0'] : ℚ) / (10 : ℚ) ^ (1 : ℕ))) = some 1001
      rw [h1, h2]
      norm_num
  · exact (C10_numeric_code_truncation
      { project_code := PyVal.vStr "P1001" } (mapProject _) (mapSnap _)
      rfl).2.1 "P1001" (by decide) rfl

/-! ## C4: chronological predecessor -/

theorem keyLt_irrefl (a : ℤ × ℤ) : ¬ keyLt a a := by
  unfold keyLt
  omega

theorem keyLt_trans {a b c : ℤ × ℤ} (h1 : keyLt a b) (h2 : keyLt b c) :
    keyLt a c := by
  unfold keyLt at h1 h2 ⊢
  omega

theorem keyLt_total {a b : ℤ × ℤ} (h1 : ¬ keyLt a b) (h2 : ¬ keyLt b a) :
    a = b := by
  cases a with
  | mk a1 a2 =>
    cases b with
    | mk b1 b2 =>
      unfold keyLt at h1 h2
      simp only [not_or, not_and, not_lt] at h1 h2
      have e1 : a1 = b1 := by omega
      have e2 : a2 = b2 := by
        rcases h1 with ⟨hl1, hr1⟩
        rcases h2 with ⟨hl2, hr2⟩
        have := hr1 e1
        have := hr2 e1.symm
        omega
      rw [e1, e2]

theorem foldl_pickLater_some_ne_none (l : List SnapRow) :
    ∀ x : SnapRow, l.foldl pickLater (some x) ≠ none := by
  induction l with
  | nil => simp
  | cons a t ih =>
    intro x
    simp only [List.foldl_cons]
    show t.foldl pickLater
      (if keyLt (snapKey x) (snapKey a) then some a else some x) ≠ none
    by_cases h : keyLt (snapKey x) (snapKey a)
    · rw [if_pos h]
      exact ih a
    · rw [if_neg h]
      exact ih x

theorem foldl_pickLater_none_iff (l : List SnapRow) :
    l.foldl pickLater none = none ↔ l = [] := by
  cases l with
  | nil => simp
  | cons a t =>
    simp only [List.foldl_cons]
    constructor
    · intro h
      exact absurd h (foldl_pickLater_some_ne_none t a)
    · intro h
      cases h

theorem foldl_pickLater_spec (l : List SnapRow) :
    ∀ (acc : Option SnapRow) (res : SnapRow),
      l.foldl pickLater acc = some res →
      (acc = some res ∨ res ∈ l) ∧
      (∀ a0, acc = some a0 → ¬ keyLt (snapKey res) (snapKey a0)) ∧
      (∀ t ∈ l, ¬ keyLt (snapKey res) (snapKey t)) := by
  induction l with
  | nil =>
    intro acc res h
    simp only [List.foldl_nil] at h
    refine ⟨Or.inl h, ?_, by simp⟩
    intro a0 ha0
    rw [h] at ha0
    cases Option.some.inj ha0
    exact keyLt_irrefl _
  | cons a t ih =>
    intro acc res h
    simp only [List.foldl_cons] at h
    obtain ⟨hmem, hacc, hall⟩ := ih (pickLater acc a) res h
    have hpick : ∀ x, pickLater acc a = some x →
        x = a ∨ (acc = some x ∧ ¬ keyLt (snapKey x) (snapKey a)) := by
      intro x hx
      cases acc with
      | none =>
        cases Option.some.inj hx
        exact Or.inl rfl
      | some b =>
        have hxb : (if keyLt (snapKey b) (snapKey a) then some a else some b)
            = some x := hx
        by_cases hk : keyLt (snapKey b) (snapKey a)
        · rw [if_pos hk] at hxb
          cases Option.some.inj hxb
          exact Or.inl rfl
        · rw [if_neg hk] at hxb
          cases Option.some.inj hxb
          exact Or.inr ⟨rfl, hk⟩
    refine ⟨?_, ?_, ?_⟩
    · rcases hmem with hpa | hmem
      · rcases hpick res hpa with h0 | ⟨h0, -⟩
        · subst h0
          exact Or.inr (List.mem_cons_self _ _)
        · exact Or.inl h0
      · exact Or.inr (List.mem_cons_of_mem _ hmem)
    · intro a0 ha0
      subst ha0
      by_cases hk : keyLt (snapKey a0) (snapKey a)
      · have hlta : ¬ keyLt (snapKey res) (snapKey a) := by
          apply hacc
          show (if keyLt (snapKey a0) (snapKey a) then some a else some a0)
            = some a
          rw [if_pos hk]
        intro hra0
        exact hlta (keyLt_trans hra0 hk)
      · apply hacc
        show (if keyLt (snapKey a0) (snapKey a) then some a else some a0)
          = some a0
        rw [if_neg hk]
    · intro u hu
      rcases List.mem_cons.mp hu with h0 | hu2
      · subst h0
        cases hq : acc with
        | none =>
          apply hacc
          rw [hq]
          rfl
        | some b =>
          by_cases hk : keyLt (snapKey b) (snapKey u)
          · apply hacc
            rw [hq]
            show (if keyLt (snapKey b) (snapKey u) then some u else some b)
              = some u
            rw [if_pos hk]
          · have hrb : ¬ keyLt (snapKey res) (snapKey b) := by
              apply hacc
              rw [hq]
              show (if keyLt (snapKey b) (snapKey u) then some u else some b)
                = some b
              rw [if_neg hk]
            intro hru
            by_cases h2 : keyLt (snapKey u) (snapKey b)
            · exact hrb (keyLt_trans hru h2)
            · rw [keyLt_total h2 hk] at hru
              exact hrb hru
      · exact hall u hu2

theorem fetch_prev_spec {db : List SnapRow} {pid : ℕ} {y w : ℤ}
    {res : SnapRow} (h : fetch_prev_snapshot db pid y w = some res) :
    res ∈ db ∧ res.pid = pid ∧ keyLt (snapKey res) (y, w) ∧
    ∀ t ∈ db, t.pid = pid → keyLt (snapKey t) (y, w) →
      ¬ keyLt (snapKey res) (snapKey t) := by
  unfold fetch_prev_snapshot at h
  obtain ⟨hmem, -, hall⟩ := foldl_pickLater_spec _ none res h
  rcases hmem with h0 | hmem
  · exact absurd h0 (by simp)
  · have hres := List.mem_filter.mp hmem
    have hprop : res.pid = pid ∧ keyLt (snapKey res) (y, w) := by
      have := hres.2
      simpa using this
    refine ⟨hres.1, hprop.1, hprop.2, ?_⟩
    intro t ht htp htk
    apply hall
    apply List.mem_filter.mpr
    exact ⟨ht, by simpa using ⟨htp, htk⟩⟩

theorem fetch_prev_none_iff (db : List SnapRow) (pid : ℕ) (y w : ℤ) :
    fetch_prev_snapshot db pid y w = none ↔
      ∀ t ∈ db, ¬(t.pid = pid ∧ keyLt (snapKey t) (y, w)) := by
  unfold fetch_prev_snapshot
  rw [foldl_pickLater_none_iff, List.filter_eq_nil_iff]
  constructor
  · intro h t ht
    have := h t ht
    simpa using this
  · intro h t ht
    simpa using h t ht

theorem fetch_prev_perm {db db2 : List SnapRow} {pid : ℕ} {y w : ℤ}
    (hu : uniqueKeys db) (hperm : db.Perm db2) :
    fetch_prev_snapshot db pid y w = fetch_prev_snapshot db2 pid y w := by
  cases h1 : fetch_prev_snapshot db pid y w with
  | none =>
    symm
    rw [fetch_prev_none_iff] at h1 ⊢
    intro t ht
    exact h1 t (hperm.mem_iff.mpr ht)
  | some res =>
    cases h2 : fetch_prev_snapshot db2 pid y w with
    | none =>
      rw [fetch_prev_none_iff] at h2
      obtain ⟨hmem, hp, hk, -⟩ := fetch_prev_spec h1
      exact absurd ⟨hp, hk⟩ (h2 res (hperm.mem_iff.mp hmem))
    | some res2 =>
      obtain ⟨hmem1, hp1, hk1, hmax1⟩ := fetch_prev_spec h1
      obtain ⟨hmem2, hp2, hk2, hmax2⟩ := fetch_prev_spec h2
      have hmem2' : res2 ∈ db := hperm.mem_iff.mpr hmem2
      have hn1 : ¬ keyLt (snapKey res) (snapKey res2) :=
        hmax1 res2 hmem2' hp2 hk2
      have hn2 : ¬ keyLt (snapKey res2) (snapKey res) :=
        hmax2 res (hperm.mem_iff.mp hmem1) hp1 hk1
      have hkeq : snapKey res = snapKey res2 := keyLt_total hn1 hn2
      by_cases hne : res = res2
      · rw [hne]
      · exfalso
        have hsym : Symmetric
            (fun a b : SnapRow => ¬(a.pid = b.pid ∧ snapKey a = snapKey b)) := by
          intro a b hab hba
          exact hab ⟨hba.1.symm, hba.2.symm⟩
        exact hu.forall hsym hmem1 hmem2' hne
          ⟨hp1.trans hp2.symm, hkeq⟩

/-- C4: the delta predecessor is the stored snapshot of the project with
the greatest (year, week) strictly below the target in chronological
order, independent of insertion order (any permutation of the store gives
the same result under the unique-key constraint); with no predecessor the
five deltas and the productivity quotient of a freshly mapped row stay
null. -/
theorem C4_chronological_predecessor (db db2 : List SnapRow) (pid : ℕ)
    (y w : ℤ) (r : RawRow) (hu : uniqueKeys db) (hperm : db.Perm db2) :
    (∀ s, fetch_prev_snapshot db pid y w = some s →
      s ∈ db ∧ s.pid = pid ∧ keyLt (snapKey s) (y, w) ∧
      ∀ t ∈ db, t.pid = pid → keyLt (snapKey t) (y, w) →
        ¬ keyLt (snapKey s) (snapKey t)) ∧
    (fetch_prev_snapshot db pid y w = none ↔
      ∀ t ∈ db, ¬(t.pid = pid ∧ keyLt (snapKey t) (y, w))) ∧
    fetch_prev_snapshot db pid y w = fetch_prev_snapshot db2 pid y w ∧
    (fetch_prev_snapshot db pid y w = none →
      allDeltasNone (compute_deltas db pid y w (mapSnap r))) := by
  refine ⟨fun s hs => fetch_prev_spec hs, fetch_prev_none_iff db pid y w,
    fetch_prev_perm hu hperm, ?_⟩
  intro hnone
  unfold compute_deltas
  rw [hnone]
  exact ⟨rfl, rfl, rfl, rfl, rfl, rfl⟩

/-! ## C5: lifecycle exclusivity -/

theorem map_comp_eq {α β : Type} (g : α → α) (pr : α → β)
    (hpr : ∀ q, pr (g q) = pr q) (l : List α) :
    (l.map g).map pr = l.map pr := by
  induction l with
  | nil => rfl
  | cons a t ih => simp [hpr, ih]

theorem mem_map_update {α : Type} {g : α → α} {l : List α} {q : α}
    (h : q ∈ l.map g) : ∃ p ∈ l, q = g p := by
  obtain ⟨p, hp, he⟩ := List.mem_map.mp h
  exact ⟨p, hp, he.symm⟩

theorem upsert_project_spec (db : DBState) (f : ProjFields)
    (hwf : WFdb db) :
    WFdb (upsert_project db f).1 ∧
    (upsert_project db f).1.historicals = db.historicals ∧
    (upsert_project db f).1.snapshots = db.snapshots ∧
    ∃ p ∈ (upsert_project db f).1.projects,
      p.id = (upsert_project db f).2 ∧ p.project_code = f.project_code := by
  obtain ⟨hnc, hni, hids, hlc, hhb⟩ := hwf
  unfold upsert_project
  cases hf : db.projects.find? (fun p => p.project_code = f.project_code) with
  | some p =>
    have hpmem : p ∈ db.projects := List.mem_of_find?_eq_some hf
    have hpcode : p.project_code = f.project_code := by
      have := List.find?_some hf
      simpa using this
    have hgcode : ∀ q : Project,
        ((fun q : Project => if q.project_code = f.project_code then
          mergeProject q f else q) q).project_code = q.project_code := by
      intro q
      by_cases h : q.project_code = f.project_code
      · simp only [if_pos h]
        rfl
      · simp only [if_neg h]
    have hgid : ∀ q : Project,
        ((fun q : Project => if q.project_code = f.project_code then
          mergeProject q f else q) q).id = q.id := by
      intro q
      by_cases h : q.project_code = f.project_code
      · simp only [if_pos h]
        rfl
      · simp only [if_neg h]
    have hgflag : ∀ q : Project,
        ((fun q : Project => if q.project_code = f.project_code then
          mergeProject q f else q) q).is_historical = q.is_historical := by
      intro q
      by_cases h : q.project_code = f.project_code
      · simp only [if_pos h]
        rfl
      · simp only [if_neg h]
    refine ⟨⟨?_, ?_, ?_, ?_, ?_⟩, rfl, rfl, ?_⟩
    · rw [map_comp_eq _ _ hgcode]
      exact hnc
    · rw [map_comp_eq _ _ hgid]
      exact hni
    · intro p' hp'
      obtain ⟨q, hq, rfl⟩ := mem_map_update hp'
      rw [hgid]
      exact hids q hq
    · intro p' hp'
      obtain ⟨q, hq, rfl⟩ := mem_map_update hp'
      rw [hgflag, hgcode]
      exact hlc q hq
    · intro h hh
      obtain ⟨q, hq, he⟩ := hhb h hh
      refine ⟨_, List.mem_map_of_mem _ hq, ?_⟩
      rw [hgcode]
      exact he
    · refine ⟨_, List.mem_map_of_mem _ hpmem, ?_, ?_⟩
      · rw [hgid]
      · rw [hgcode]
        exact hpcode
  | none =>
    have hnone : ∀ q ∈ db.projects, ¬ q.project_code = f.project_code := by
      intro q hq
      have := List.find?_eq_none.mp hf q hq
      simpa using this
    refine ⟨⟨?_, ?_, ?_, ?_, ?_⟩, rfl, rfl, ?_⟩
    · rw [List.map_append, List.nodup_append]
      refine ⟨hnc, by simp, ?_⟩
      intro a ha
      simp only [List.map_cons, List.map_nil, List.mem_singleton]
      obtain ⟨q, hq, rfl⟩ := List.mem_map.mp ha
      intro he
      exact hnone q hq (by simpa [newProject] using he)
    · rw [List.map_append, List.nodup_append]
      refine ⟨hni, by simp, ?_⟩
      intro a ha
      simp only [List.map_cons, List.map_nil, List.mem_singleton]
      obtain ⟨q, hq, rfl⟩ := List.mem_map.mp ha
      intro he
      have : q.id < db.nextId := hids q hq
      rw [show (newProject db.nextId f).id = db.nextId from rfl] at he
      omega
    · intro p' hp'
      rcases List.mem_append.mp hp' with h0 | h0
      · exact lt_trans (hids p' h0) (Nat.lt_succ_self _)
      · rw [List.mem_singleton.mp h0]
        exact Nat.lt_succ_self _
    · intro p' hp'
      rcases List.mem_append.mp hp' with h0 | h0
      · exact hlc p' h0
      · rw [List.mem_singleton.mp h0]
        constructor
        · intro hfl
          exact absurd hfl (by simp [newProject])
        · rintro ⟨h, hh, he⟩
          obtain ⟨q, hq, he2⟩ := hhb h hh
          exact absurd (he2.trans (by simpa [newProject] using he))
            (hnone q hq)
    · intro h hh
      obtain ⟨q, hq, he⟩ := hhb h hh
      exact ⟨q, List.mem_append_left _ hq, he⟩
    · exact ⟨newProject db.nextId f,
        List.mem_append_right _ (List.mem_singleton_self _), rfl, rfl⟩

theorem upsert_hist_has_rec (hl : List HistRec) (rec : HistRec) :
    ∃ h ∈ upsert_hist hl rec, h.project_code = rec.project_code := by
  unfold upsert_hist
  by_cases hany : hl.any (fun h => h.project_code = rec.project_code)
  · rw [if_pos hany]
    obtain ⟨h0, hh0, he0⟩ := List.any_eq_true.mp hany
    refine ⟨_, List.mem_map_of_mem _ hh0, ?_⟩
    rw [if_pos (by simpa using he0)]
  · rw [if_neg hany]
    exact ⟨rec, List.mem_append_right _ (List.mem_singleton_self _), rfl⟩

theorem upsert_hist_other (hl : List HistRec) (rec : HistRec)
    (code : String) (hne : code ≠ rec.project_code) :
    (∃ h ∈ upsert_hist hl rec, h.project_code = code) ↔
      ∃ h ∈ hl, h.project_code = code := by
  unfold upsert_hist
  by_cases hany : hl.any (fun h => h.project_code = rec.project_code)
  · rw [if_pos hany]
    constructor
    · rintro ⟨h', hm, he⟩
      obtain ⟨h0, hh0, rfl⟩ := mem_map_update hm
      by_cases hc : h0.project_code = rec.project_code
      · rw [if_pos hc] at he
        exact absurd he.symm hne
      · rw [if_neg hc] at he
        exact ⟨h0, hh0, he⟩
    · rintro ⟨h0, hh0, he⟩
      refine ⟨_, List.mem_map_of_mem _ hh0, ?_⟩
      rw [if_neg (fun hc => hne (he.symm.trans hc))]
      exact he
  · rw [if_neg hany]
    constructor
    · rintro ⟨h', hm, he⟩
      rcases List.mem_append.mp hm with h0 | h0
      · exact ⟨h', h0, he⟩
      · rw [List.mem_singleton.mp h0] at he
        exact absurd he.symm hne
    · rintro ⟨h0, hh0, he⟩
      exact ⟨h0, List.mem_append_left _ hh0, he⟩

theorem upsert_hist_backing (hl : List HistRec) (rec : HistRec) :
    ∀ h' ∈ upsert_hist hl rec,
      h'.project_code = rec.project_code ∨ h' ∈ hl := by
  intro h' hm
  unfold upsert_hist at hm
  by_cases hany : hl.any (fun h => h.project_code = rec.project_code)
  · rw [if_pos hany] at hm
    obtain ⟨h0, hh0, rfl⟩ := mem_map_update hm
    by_cases hc : h0.project_code = rec.project_code
    · rw [if_pos hc]
      exact Or.inl rfl
    · rw [if_neg hc]
      exact Or.inr hh0
  · rw [if_neg hany] at hm
    rcases List.mem_append.mp hm with h0 | h0
    · exact Or.inr h0
    · rw [List.mem_singleton.mp h0]
      exact Or.inl rfl

theorem move_WF (db : DBState) (pid : ℕ) (f : ProjFields)
    (wl fn : String) (hwf : WFdb db)
    (hex : ∃ p ∈ db.projects, p.id = pid ∧ p.project_code = f.project_code) :
    WFdb (move_project_to_historical db pid f wl fn) := by
  obtain ⟨hnc, hni, hids, hlc, hhb⟩ := hwf
  obtain ⟨p0, hp0, hid0, hcode0⟩ := hex
  have hgcode : ∀ q : Project,
      ((fun p : Project => if p.id = pid then
        { p with is_historical := true } else p) q).project_code =
        q.project_code := by
    intro q
    by_cases h : q.id = pid
    · simp only [if_pos h]
    · simp only [if_neg h]
  have hgid : ∀ q : Project,
      ((fun p : Project => if p.id = pid then
        { p with is_historical := true } else p) q).id = q.id := by
    intro q
    by_cases h : q.id = pid
    · simp only [if_pos h]
    · simp only [if_neg h]
  refine ⟨?_, ?_, ?_, ?_, ?_⟩
  · rw [show (move_project_to_historical db pid f wl fn).projects =
      db.projects.map _ from rfl, map_comp_eq _ _ hgcode]
    exact hnc
  · rw [show (move_project_to_historical db pid f wl fn).projects =
      db.projects.map _ from rfl, map_comp_eq _ _ hgid]
    exact hni
  · intro p' hp'
    obtain ⟨q, hq, rfl⟩ := mem_map_update hp'
    rw [hgid]
    exact hids q hq
  · intro p' hp'
    obtain ⟨q, hq, rfl⟩ := mem_map_update hp'
    by_cases hqid : q.id = pid
    · have hq0 : q = p0 :=
        List.inj_on_of_nodup_map hni hq hp0 (by rw [hqid, hid0])
      simp only [if_pos hqid]
      constructor
      · intro _
        rw [show (move_project_to_historical db pid f wl fn).historicals =
          upsert_hist db.historicals (frozen_record db pid f wl fn)
          from rfl, hq0, hcode0]
        exact upsert_hist_has_rec db.historicals
          (frozen_record db pid f wl fn)
      · intro _
        trivial
    · simp only [if_neg hqid]
      have hqcode : ¬ q.project_code = f.project_code := by
        intro hc
        exact hqid (by
          rw [List.inj_on_of_nodup_map hnc hq hp0 (hc.trans hcode0.symm)]
          exact hid0)
      have hother := upsert_hist_other db.historicals
        (frozen_record db pid f wl fn) q.project_code
        (by simpa [frozen_record] using hqcode)
      rw [show (move_project_to_historical db pid f wl fn).historicals =
        upsert_hist db.historicals (frozen_record db pid f wl fn) from rfl]
      rw [hother]
      exact hlc q hq
  · intro h' hh'
    rcases upsert_hist_backing db.historicals
      (frozen_record db pid f wl fn) h' hh' with h0 | h0
    · refine ⟨_, List.mem_map_of_mem _ hp0, ?_⟩
      rw [hgcode, hcode0, h0]
      rfl
    · obtain ⟨q, hq, he⟩ := hhb h' h0
      refine ⟨_, List.mem_map_of_mem _ hq, ?_⟩
      rw [hgcode]
      exact he

theorem move_effects (db : DBState) (pid : ℕ) (f : ProjFields)
    (wl fn : String) :
    (∃ h ∈ (move_project_to_historical db pid f wl fn).historicals,
      h.project_code = f.project_code) ∧
    (∀ p ∈ (move_project_to_historical db pid f wl fn).projects,
      p.id = pid → p.is_historical = true) := by
  constructor
  · have := upsert_hist_has_rec db.historicals
      (frozen_record db pid f wl fn)
    simpa [frozen_record] using this
  · intro p' hp' hid
    obtain ⟨q, hq, rfl⟩ := mem_map_update hp'
    by_cases hqid : q.id = pid
    · simp only [if_pos hqid]
    · simp only [if_neg hqid] at hid ⊢
      exact absurd hid hqid

theorem restore_WF (db : DBState) (code : String) (hwf : WFdb db) :
    WFdb (restore_project_from_historical db code) := by
  obtain ⟨hnc, hni, hids, hlc, hhb⟩ := hwf
  have hgcode : ∀ q : Project,
      ((fun p : Project => if p.project_code = code then
        { p with is_historical := false } else p) q).project_code =
        q.project_code := by
    intro q
    by_cases h : q.project_code = code
    · simp only [if_pos h]
    · simp only [if_neg h]
  have hgid : ∀ q : Project,
      ((fun p : Project => if p.project_code = code then
        { p with is_historical := false } else p) q).id = q.id := by
    intro q
    by_cases h : q.project_code = code
    · simp only [if_pos h]
    · simp only [if_neg h]
  refine ⟨?_, ?_, ?_, ?_, ?_⟩
  · rw [show (restore_project_from_historical db code).projects =
      db.projects.map _ from rfl, map_comp_eq _ _ hgcode]
    exact hnc
  · rw [show (restore_project_from_historical db code).projects =
      db.projects.map _ from rfl, map_comp_eq _ _ hgid]
    exact hni
  · intro p' hp'
    obtain ⟨q, hq, rfl⟩ := mem_map_update hp'
    rw [hgid]
    exact hids q hq
  · intro p' hp'
    obtain ⟨q, hq, rfl⟩ := mem_map_update hp'
    by_cases hqc : q.project_code = code
    · simp only [if_pos hqc]
      constructor
      · intro hfl
        exact absurd hfl (by simp)
      · rintro ⟨h', hm, he⟩
        have := List.mem_filter.mp hm
        rw [hqc] at he
        exact absurd he (by simpa using this.2)
    · simp only [if_neg hqc]
      rw [show (restore_project_from_historical db code).historicals =
        db.historicals.filter (fun h => ¬ h.project_code = code) from rfl]
      constructor
      · intro hfl
        obtain ⟨h', hm, he⟩ := (hlc q hq).mp hfl
        refine ⟨h', List.mem_filter.mpr ⟨hm, ?_⟩, he⟩
        simpa using fun hc => hqc (he.symm.trans hc)
      · rintro ⟨h', hm, he⟩
        exact (hlc q hq).mpr ⟨h', (List.mem_filter.mp hm).1, he⟩
  · intro h' hh'
    have hm := (List.mem_filter.mp hh').1
    obtain ⟨q, hq, he⟩ := hhb h' hm
    refine ⟨_, List.mem_map_of_mem _ hq, ?_⟩
    rw [hgcode]
    exact he

theorem restore_effects (db : DBState) (code : String) :
    (∀ h ∈ (restore_project_from_historical db code).historicals,
      ¬ h.project_code = code) ∧
    (∀ p ∈ (restore_project_from_historical db code).projects,
      p.project_code = code → p.is_historical = false) := by
  constructor
  · intro h' hh'
    have := (List.mem_filter.mp hh').2
    simpa using this
  · intro p' hp' hcode
    obtain ⟨q, hq, rfl⟩ := mem_map_update hp'
    by_cases hqc : q.project_code = code
    · simp only [if_pos hqc]
    · simp only [if_neg hqc] at hcode ⊢
      exact absurd hcode hqc

theorem WF_set_snapshots (db : DBState) (s : List SnapRow)
    (hwf : WFdb db) : WFdb { db with snapshots := s } := hwf

theorem process_row_ots_WF (db : DBState) (c : Counters) (fid : Option ℕ)
    (y w : ℤ) (r : RawRow) (hwf : WFdb db) :
    WFdb (process_row_ots db c fid y w r).1 := by
  unfold process_row_ots
  split
  · exact hwf
  · split
    · exact hwf
    · exact WF_set_snapshots _ _
        (upsert_project_spec db (fix_fields _) hwf).1

theorem dispatch_full_WF (db : DBState) (c : Counters) (fid : Option ℕ)
    (y w : ℤ) (fn code : String) (pf : ProjFields) (sf : SnapRec)
    (hwf : WFdb db) :
    WFdb (dispatch_full (upsert_project db pf).1 (upsert_project db pf).2
      c fid y w fn code pf sf).1 := by
  obtain ⟨hwf1, -, -, hex⟩ := upsert_project_spec db pf hwf
  unfold dispatch_full
  by_cases h1 : statusToken sf.internal_status = "closed" ∨
      statusToken sf.internal_status = "hided"
  · rw [if_pos h1]
    exact move_WF _ _ _ _ _ hwf1
      (by
        obtain ⟨p, hp, h2, h3⟩ := hex
        exact ⟨p, hp, h2, h3⟩)
  · rw [if_neg h1]
    by_cases h2 : statusToken sf.internal_status = "normal"
    · rw [if_pos h2]
      by_cases h3 : (upsert_project db pf).1.historicals.any
          (fun h => h.project_code = code)
      · rw [if_pos h3]
        exact WF_set_snapshots _ _ (restore_WF _ _ hwf1)
      · rw [if_neg h3]
        exact hwf1
    · rw [if_neg h2]
      exact hwf1

theorem process_row_full_WF (db : DBState) (c : Counters) (fid : Option ℕ)
    (y w : ℤ) (fn : String) (r : RawRow) (hwf : WFdb db) :
    WFdb (process_row_full db c fid y w fn r).1 := by
  unfold process_row_full
  split
  · exact hwf
  · split
    · exact hwf
    · exact dispatch_full_WF db c fid y w fn (pyStrip _) (fix_fields _) _
        hwf

/-- C5: lifecycle exclusivity. The empty database satisfies the invariant
that a project's is_historical flag is set exactly when a historical
record with its code exists; each imported row, in subset and in full
mode, preserves it; archival plants the record and sets the flag of the
archived project; restoration deletes every record with the code and
clears the flag. -/
theorem C5_lifecycle_exclusivity :
    (WFdb emptyState ∧ lifecycleConsistent emptyState) ∧
    (∀ db c fid y w r, WFdb db →
      WFdb (process_row_ots db c fid y w r).1 ∧
      lifecycleConsistent (process_row_ots db c fid y w r).1) ∧
    (∀ db c fid y w fn r, WFdb db →
      WFdb (process_row_full db c fid y w fn r).1 ∧
      lifecycleConsistent (process_row_full db c fid y w fn r).1) ∧
    (∀ db pid f wl fn, WFdb db →
      (∃ p ∈ db.projects, p.id = pid ∧ p.project_code = f.project_code) →
      WFdb (move_project_to_historical db pid f wl fn) ∧
      (∃ h ∈ (move_project_to_historical db pid f wl fn).historicals,
        h.project_code = f.project_code) ∧
      (∀ p ∈ (move_project_to_historical db pid f wl fn).projects,
        p.id = pid → p.is_historical = true)) ∧
    (∀ db code, WFdb db →
      WFdb (restore_project_from_historical db code) ∧
      (∀ h ∈ (restore_project_from_historical db code).historicals,
        ¬ h.project_code = code) ∧
      (∀ p ∈ (restore_project_from_historical db code).projects,
        p.project_code = code → p.is_historical = false)) := by
  refine ⟨⟨?_, ?_⟩, ?_, ?_, ?_, ?_⟩
  · refine ⟨List.nodup_nil, List.nodup_nil, ?_, ?_, ?_⟩
    · intro p hp
      cases hp
    · intro p hp
      cases hp
    · intro h hh
      cases hh
  · intro p hp
    cases hp
  · intro db c fid y w r hwf
    have h := process_row_ots_WF db c fid y w r hwf
    exact ⟨h, h.2.2.2.1⟩
  · intro db c fid y w fn r hwf
    have h := process_row_full_WF db c fid y w fn r hwf
    exact ⟨h, h.2.2.2.1⟩
  · intro db pid f wl fn hwf hex
    exact ⟨move_WF db pid f wl fn hwf hex,
      (move_effects db pid f wl fn).1, (move_effects db pid f wl fn).2⟩
  · intro db code hwf
    exact ⟨restore_WF db code hwf,
      (restore_effects db code).1, (restore_effects db code).2⟩

theorem C5_lifecycle_exclusivity_witness :
    WFdb (process_row_full dbActive {} (some 9) 2026 6 "f.xlsx"
      rowClosed).1 ∧
    lifecycleConsistent (process_row_full dbActive {} (some 9) 2026 6
      "f.xlsx" rowClosed).1 :=
  C5_lifecycle_exclusivity.2.2.1 dbActive {} (some 9) 2026 6 "f.xlsx"
    rowClosed
    ⟨by simp [dbActive],
     by simp [dbActive],
     by simp [dbActive, projActive],
     by
       intro p hp
       simp [dbActive] at hp
       simp [hp, projActive, dbActive],
     by
       intro h hh
       simp [dbActive] at hh⟩

/-! ## C1 and C2: full-mode lifecycle dispatch at the failing inputs -/

/-- C1 (code behavior at the failing input): in full import mode a row
with status token normal whose project is ACTIVE (no historical record)
is counted skipped, not imported, and no snapshot row is written — the
shipped dispatch never performs the ordinary ingestion the claim (and the
repository's own test-double of this endpoint, which looks up
is_historical) describes. -/
theorem C1_active_normal_row_skipped :
    (process_row_full dbActive {} (some 9) 2026 6 "f.xlsx" rowNormal).2 =
      { imported := 0, archived := 0, restored := 0, skipped := 1 } ∧
    (process_row_full dbActive {} (some 9) 2026 6 "f.xlsx"
      rowNormal).1.snapshots = [] ∧
    projActive.is_historical = false ∧
    dbActive.historicals = [] := by
  refine ⟨by decide, by decide, rfl, rfl⟩

/-- C2 (code behavior at the failing input): in full import mode a row
with status closed for an already-HISTORICAL project is re-archived, not
skipped: the archived counter is incremented instead of skipped, and the
existing HistoricalRecord is overwritten in place (its archival week label
changes from 2025-W01 to 2026-W06), contradicting the claimed no-op and
the repository's test_historical_to_historical_is_frozen. -/
theorem C2_historical_closed_row_rearchived :
    (process_row_full dbHist {} (some 9) 2026 6 "f.xlsx" rowClosed).2 =
      { imported := 0, archived := 1, restored := 0, skipped := 0 } ∧
    (process_row_full dbHist {} (some 9) 2026 6 "f.xlsx"
      rowClosed).1.historicals.map
        (fun h => h.moved_to_historical_week) = ["2026-W06"] ∧
    histP1.moved_to_historical_week = "2025-W01" := by
  refine ⟨by decide, by decide, rfl⟩

theorem C4_chronological_predecessor_witness :
    fetch_prev_snapshot exSnapStore 1 2025 1 =
      fetch_prev_snapshot exSnapStoreRev 1 2025 1 ∧
    allDeltasNone (compute_deltas exSnapStore 1 2025 1 (mapSnap rowNormal)) := by
  have h := C4_chronological_predecessor exSnapStore exSnapStoreRev 1 2025 1
    rowNormal (by simp [uniqueKeys, snapKey, exSnapStore]) (List.Perm.swap _ _ _)
  exact ⟨h.2.2.1, h.2.2.2 (by decide)⟩

end PMApp
